import Mathlib

/-!
Shallow embedding of the core algorithmic parts of the `plantillas-pdf-`
canvas editor (sources: `canvas_editor.py` and the second, unnamed editor
module), together with theorems settling the frozen specification claims.

Conventions of the embedding:
* Python floats are modelled as rationals (`ℚ`); the properties at stake are
  exact-arithmetic properties (ratios, clamps, thresholds), not
  floating-point rounding behaviour.
* `QPointF` / `QRectF` become `Pt` / `Rect` records over `ℚ`.
* JSON text is modelled by the inductive `JValue`; a history entry produced
  by `json.dumps` is represented by the decoded `JValue`, and an argument
  to `restore_state` is an `Option JValue`, `none` standing for a string on
  which `json.loads` raises `JSONDecodeError`.
* Filesystem facts (`os.path.exists`, `Image.open` succeeding) are
  parameters `pathExists`, `loadOk : String → Bool`.
-/

namespace Plantillas

/-- 2D point (`QPointF`) over `ℚ`. -/
structure Pt where
  x : ℚ
  y : ℚ
  deriving DecidableEq, Repr

/-- Axis-aligned rectangle (`QRectF`): origin plus size, over `ℚ`. -/
structure Rect where
  x : ℚ
  y : ℚ
  w : ℚ
  h : ℚ
  deriving DecidableEq, Repr

namespace Rect

def left (r : Rect) : ℚ := r.x
def right (r : Rect) : ℚ := r.x + r.w
def top (r : Rect) : ℚ := r.y
def bottom (r : Rect) : ℚ := r.y + r.h
def centerX (r : Rect) : ℚ := r.x + r.w / 2
def centerY (r : Rect) : ℚ := r.y + r.h / 2

/-- `QRectF.translate(offset)`. -/
def translate (r : Rect) (d : Pt) : Rect :=
  { r with x := r.x + d.x, y := r.y + d.y }

end Rect

/-! ## Unit conversion (`cm_to_pixels` in `canvas_editor.py`,
`cm_to_px` in the unnamed module: `(cm / 2.54) * dpi`). -/

def cm_to_pixels (cm : ℚ) (dpi : ℚ) : ℚ := cm / 2.54 * dpi

/-! ## Geometry utilities (`MathUtils` in the unnamed module) -/

/-- Python `angle % 360` (sign of the divisor, so the result is in
`[0, 360)`). -/
def pymod360 (a : ℚ) : ℚ := a - 360 * ⌊a / 360⌋

/-- The table `snap_angles` scanned by `MathUtils.snap_angle`. -/
def snapAngles : List ℚ :=
  [0, 15, 30, 45, 60, 75, 90, 105, 120, 135, 150, 165, 180,
   195, 210, 225, 240, 255, 270, 285, 300, 315, 330, 345, 360]

/-- `MathUtils.snap_angle(angle, snap_threshold=15)`: normalize the angle to
`[0, 360)`, then return the first table entry within the threshold, else the
(unnormalized) angle. -/
def snap_angle (angle : ℚ) (snap_threshold : ℚ := 15) : ℚ :=
  let normalized := pymod360 angle
  (snapAngles.find? (fun snap => decide (|normalized - snap| < snap_threshold))).getD angle

/-- `perform_rotation` (unnamed module): the rotation finally applied, as a
function of the `atan2`-derived pointer angle (the transcendental
`angle_between_points` value is taken as the input). The tool's convention
adds 90° so 0° points up, then snaps when Shift is held. -/
def perform_rotation_angle (atan2Angle : ℚ) (snap : Bool) : ℚ :=
  let angle := pymod360 (atan2Angle + 90)
  if snap then snap_angle angle else angle

/-! ## Resize engine of the unnamed module (`ImageItem.perform_resize`) -/

/-- `HandleType` enum of the unnamed module. -/
inductive HandleType where
  | corner_nw | corner_ne | corner_sw | corner_se
  | side_n | side_s | side_e | side_w
  | rotation
  deriving DecidableEq, Repr

def HandleType.isCorner : HandleType → Bool
  | .corner_nw | .corner_ne | .corner_sw | .corner_se => true
  | _ => false

/-- `Transform` dataclass of the unnamed module (rotation is irrelevant to
the resize math and omitted by `perform_resize` itself). -/
structure Transform where
  x : ℚ
  y : ℚ
  width : ℚ
  height : ℚ
  deriving DecidableEq, Repr

/-- Corner branch of `perform_resize`, first step: the per-corner sign
convention applied to the pointer delta (the opposite corner stays fixed by
shifting the position where needed). -/
def corner_raw (handle_type : HandleType) (start_data : Transform) (delta : Pt) :
    Transform :=
  match handle_type with
  | .corner_se =>
      { x := start_data.x, y := start_data.y,
        width := start_data.width + delta.x, height := start_data.height + delta.y }
  | .corner_nw =>
      { x := start_data.x + delta.x, y := start_data.y + delta.y,
        width := start_data.width - delta.x, height := start_data.height - delta.y }
  | .corner_ne =>
      { x := start_data.x, y := start_data.y + delta.y,
        width := start_data.width + delta.x, height := start_data.height - delta.y }
  | _ =>  -- CORNER_SW
      { x := start_data.x + delta.x, y := start_data.y,
        width := start_data.width - delta.x, height := start_data.height + delta.y }

/-- Corner branch, second step (no free transform): the larger of the two
dimension changes drives the other dimension via the original aspect
ratio. -/
def corner_aspect (start_data : Transform) (c : Transform)
    (original_aspect_ratio : ℚ) : Transform :=
  if |c.width - start_data.width| > |c.height - start_data.height| then
    { c with height := c.width / original_aspect_ratio }
  else
    { c with width := c.height * original_aspect_ratio }

/-- Corner branch, third step (no free transform): re-derive the position
from the aspect-corrected dimensions so the opposite corner stays fixed. -/
def corner_fix_pos (handle_type : HandleType) (start_data : Transform)
    (c : Transform) : Transform :=
  match handle_type with
  | .corner_nw =>
      { c with x := start_data.x + (start_data.width - c.width),
               y := start_data.y + (start_data.height - c.height) }
  | .corner_ne =>
      { c with y := start_data.y + (start_data.height - c.height) }
  | .corner_sw =>
      { c with x := start_data.x + (start_data.width - c.width) }
  | _ => c

/-- Body of `perform_resize` before the final minimum-size clamp: the new
`(x, y, width, height)` computed per handle, including the
aspect-ratio branch for corner handles when free transform is off.
`delta` is the pointer delta already mapped into the item's local frame
(`mapFromScene`); `keep_aspect` is the (unused, as in the source) Shift
flag; `original_aspect_ratio` is `pixmap.width() / pixmap.height()`
recorded at the item's creation. -/
def resize_raw (handle_type : HandleType) (start_data : Transform) (delta : Pt)
    (_keep_aspect : Bool) (free_transform : Bool) (original_aspect_ratio : ℚ) :
    Transform :=
  if handle_type.isCorner then
    let c := corner_raw handle_type start_data delta
    if !free_transform then
      corner_fix_pos handle_type start_data
        (corner_aspect start_data c original_aspect_ratio)
    else c
  else
    match handle_type with
    | .side_e => { start_data with width := start_data.width + delta.x }
    | .side_w => { start_data with width := start_data.width - delta.x,
                                   x := start_data.x + delta.x }
    | .side_s => { start_data with height := start_data.height + delta.y }
    | .side_n => { start_data with height := start_data.height - delta.y,
                                   y := start_data.y + delta.y }
    | _ => start_data

/-- `ImageItem.perform_resize` (unnamed module): the per-handle computation
followed by the hard minimum-size clamp `max(20, ·)` on both dimensions
(the position is not re-derived after the clamp, as in the source). -/
def perform_resize (handle_type : HandleType) (start_data : Transform) (delta : Pt)
    (keep_aspect : Bool) (free_transform : Bool) (original_aspect_ratio : ℚ) :
    Transform :=
  let c := resize_raw handle_type start_data delta keep_aspect free_transform
    original_aspect_ratio
  { c with width := max 20 c.width, height := max 20 c.height }

/-! ## Resize math of `DraggableImageItem.mouseMoveEvent`
(`canvas_editor.py`): the new pixmap dimensions computed from the resize
handle, the scene-space pointer delta and the Shift (aspect) flag.
Here the clamp is `max(10, ·)` applied per driven dimension, and the
aspect branch derives the height from the already-clamped width using the
start rect's ratio. -/

inductive DHandle where
  | tl | tr | bl | br | t | b | l | r
  deriving DecidableEq, Repr

def DHandle.isCorner : DHandle → Bool
  | .tl | .tr | .bl | .br => true
  | _ => false

/-- New `(width, height)` computed by the resize branch of
`DraggableImageItem.mouseMoveEvent`. `rectW, rectH` are the pixmap rect
dimensions at mouse press (`resize_start_rect`), `delta` the scene pointer
delta, `maintain_aspect_ratio` the Shift flag. -/
def draggable_resize_dims (resize_handle : DHandle) (rectW rectH : ℚ) (delta : Pt)
    (maintain_aspect_ratio : Bool) : ℚ × ℚ :=
  if resize_handle.isCorner then
    let wh : ℚ × ℚ :=
      match resize_handle with
      | .br => (max 10 (rectW + delta.x), max 10 (rectH + delta.y))
      | .bl => (max 10 (rectW - delta.x), max 10 (rectH + delta.y))
      | .tr => (max 10 (rectW + delta.x), max 10 (rectH - delta.y))
      | _ => (max 10 (rectW - delta.x), max 10 (rectH - delta.y))  -- 'tl'
    if maintain_aspect_ratio then
      let aspect_ratio := rectW / rectH
      (wh.1, wh.1 / aspect_ratio)
    else wh
  else
    match resize_handle with
    | .r => (max 10 (rectW + delta.x), rectH)
    | .l => (max 10 (rectW - delta.x), rectH)
    | .b => (rectW, max 10 (rectH + delta.y))
    | _ => (rectW, max 10 (rectH - delta.y))  -- 't'

/-! ## Smart alignment guides (`SmartGuideManager`, `canvas_editor.py`) -/

/-- Orientation of a guide line drawn by
`draw_vertical_guide` / `draw_horizontal_guide`. -/
inductive GuideKind where
  | vertical | horizontal
  deriving DecidableEq, Repr

/-- A guide line drawn during one detection pass: orientation plus the
coordinate it is drawn at. -/
structure Guide where
  kind : GuideKind
  coord : ℚ
  deriving DecidableEq, Repr

/-- The six values `get_item_bounds` reads off a scene bounding rect. -/
structure ItemBounds where
  left : ℚ
  right : ℚ
  top : ℚ
  bottom : ℚ
  center_x : ℚ
  center_y : ℚ
  deriving DecidableEq, Repr

def get_item_bounds (r : Rect) : ItemBounds :=
  { left := r.left, right := r.right, top := r.top, bottom := r.bottom,
    center_x := r.centerX, center_y := r.centerY }

/-- Accumulator threaded through one `detect_alignments` pass: the optional
per-axis snapped coordinate and the guides drawn so far, in draw order. -/
structure SnapState where
  snapX : Option ℚ
  snapY : Option ℚ
  guides : List Guide
  deriving DecidableEq, Repr

/-- The ten per-item checks of `detect_alignments`, in source order
(`mb` are the moving rect's bounds at the candidate position, `mr` the
moving rect itself, `ob` the other item's bounds). Each check fires only
when its axis has not already snapped, and draws one guide when it fires.
The snapped x/y value is transcribed literally from the source; note that
for the center checks `mr.centerX - mr.left` is `mr.w / 2`, so the two
correction terms cancel. -/
def item_checks (snap_threshold : ℚ) (mb : ItemBounds) (mr : Rect)
    (ob : ItemBounds) (st : SnapState) : SnapState :=
  -- Alineación de centros
  let st :=
    if st.snapX.isNone ∧ |mb.center_x - ob.center_x| < snap_threshold then
      { st with snapX := some (ob.center_x - (mr.centerX - mr.left) + mr.w / 2),
                guides := st.guides ++ [⟨.vertical, ob.center_x⟩] }
    else st
  let st :=
    if st.snapY.isNone ∧ |mb.center_y - ob.center_y| < snap_threshold then
      { st with snapY := some (ob.center_y - (mr.centerY - mr.top) + mr.h / 2),
                guides := st.guides ++ [⟨.horizontal, ob.center_y⟩] }
    else st
  -- Alineación de bordes
  let st :=
    if st.snapX.isNone ∧ |mb.left - ob.left| < snap_threshold then
      { st with snapX := some ob.left,
                guides := st.guides ++ [⟨.vertical, ob.left⟩] }
    else st
  let st :=
    if st.snapX.isNone ∧ |mb.right - ob.right| < snap_threshold then
      { st with snapX := some (ob.right - mr.w),
                guides := st.guides ++ [⟨.vertical, ob.right⟩] }
    else st
  let st :=
    if st.snapY.isNone ∧ |mb.top - ob.top| < snap_threshold then
      { st with snapY := some ob.top,
                guides := st.guides ++ [⟨.horizontal, ob.top⟩] }
    else st
  let st :=
    if st.snapY.isNone ∧ |mb.bottom - ob.bottom| < snap_threshold then
      { st with snapY := some (ob.bottom - mr.h),
                guides := st.guides ++ [⟨.horizontal, ob.bottom⟩] }
    else st
  -- Alineación cruzada (centro de uno con borde de otro)
  let st :=
    if st.snapX.isNone ∧ |mb.center_x - ob.left| < snap_threshold then
      { st with snapX := some (ob.left - (mr.centerX - mr.left) + mr.w / 2),
                guides := st.guides ++ [⟨.vertical, ob.left⟩] }
    else st
  let st :=
    if st.snapX.isNone ∧ |mb.center_x - ob.right| < snap_threshold then
      { st with snapX := some (ob.right - (mr.centerX - mr.left) + mr.w / 2),
                guides := st.guides ++ [⟨.vertical, ob.right⟩] }
    else st
  let st :=
    if st.snapY.isNone ∧ |mb.center_y - ob.top| < snap_threshold then
      { st with snapY := some (ob.top - (mr.centerY - mr.top) + mr.h / 2),
                guides := st.guides ++ [⟨.horizontal, ob.top⟩] }
    else st
  let st :=
    if st.snapY.isNone ∧ |mb.center_y - ob.bottom| < snap_threshold then
      { st with snapY := some (ob.bottom - (mr.centerY - mr.top) + mr.h / 2),
                guides := st.guides ++ [⟨.horizontal, ob.bottom⟩] }
    else st
  st

/-- `SmartGuideManager.detect_alignments(moving_item, new_pos)`.
`movingRect`/`movingPos` are the moving item's current scene bounding rect
and position (the candidate rect is the former translated by
`new_pos - pos`, as in the source); `others` are the scene bounding rects
of the other draggable items, in scene iteration order; `canvas` is
`scene.sceneRect()`. Returns the possibly-adjusted position and the guides
drawn during this pass (previous guides are cleared at entry; when the
manager is disabled nothing is drawn and the position passes through). -/
def detect_alignments (enabled : Bool) (snap_threshold : ℚ) (canvas : Rect)
    (others : List Rect) (movingRect : Rect) (movingPos : Pt) (new_pos : Pt) :
    Pt × List Guide :=
  if !enabled then (new_pos, [])
  else
    let offset : Pt := ⟨new_pos.x - movingPos.x, new_pos.y - movingPos.y⟩
    let mr := movingRect.translate offset
    let mb := get_item_bounds mr
    let canvas_center_x := canvas.centerX
    let canvas_center_y := canvas.centerY
    -- Verificar alineación con canvas
    let st : SnapState := ⟨none, none, []⟩
    let st :=
      if |mb.center_x - canvas_center_x| < snap_threshold then
        { st with
            snapX := some (canvas_center_x - (mr.centerX - mr.left) + mr.w / 2),
            guides := st.guides ++ [⟨.vertical, canvas_center_x⟩] }
      else st
    let st :=
      if |mb.center_y - canvas_center_y| < snap_threshold then
        { st with
            snapY := some (canvas_center_y - (mr.centerY - mr.top) + mr.h / 2),
            guides := st.guides ++ [⟨.horizontal, canvas_center_y⟩] }
      else st
    -- Verificar alineación con otros items
    let st := others.foldl
      (fun st other => item_checks snap_threshold mb mr (get_item_bounds other) st) st
    (⟨st.snapX.getD new_pos.x, st.snapY.getD new_pos.y⟩, st.guides)

/-- Scene bounding rect of an unrotated `DraggableImageItem` whose pixmap is
`w × h` at position `pos`: `boundingRect` expands the pixmap rect by the
handle margin on the left/right/bottom and additionally by the rotation
handle reach on top (`adjusted(-14, -61, 14, 14)` with `handle_size = 12`
and `rotation_handle_distance = 30`). -/
def image_scene_rect (pos : Pt) (w h : ℚ) : Rect :=
  { x := pos.x - 14, y := pos.y - 61, w := w + 28, h := h + 75 }

/-! ## `itemChange` move handling (`ItemPositionChange`) -/

/-- Position filtering in `DraggableImageItem.itemChange`: grid snap (1 cm
cells, converted at the canvas DPI) takes the first branch; otherwise the
smart-guide detector runs, unless a resize or rotation drag is active. -/
def image_item_change (snap_to_grid : Bool) (canvas_dpi : ℚ)
    (is_resizing is_rotating : Bool) (guides_enabled : Bool) (snap_threshold : ℚ)
    (canvas : Rect) (others : List Rect) (movingRect : Rect) (movingPos : Pt)
    (new_pos : Pt) : Pt :=
  if snap_to_grid then
    let grid_size_px := cm_to_pixels 1 canvas_dpi
    ⟨round (new_pos.x / grid_size_px) * grid_size_px,
     round (new_pos.y / grid_size_px) * grid_size_px⟩
  else if !is_resizing ∧ !is_rotating then
    (detect_alignments guides_enabled snap_threshold canvas others movingRect
      movingPos new_pos).1
  else new_pos

/-- Position filtering in `DraggableTextItem.itemChange`: the smart-guide
detector always runs unless the text is in edit mode — there is no
grid-snap branch for text items. -/
def text_item_change (is_editing : Bool) (guides_enabled : Bool)
    (snap_threshold : ℚ) (canvas : Rect) (others : List Rect)
    (movingRect : Rect) (movingPos : Pt) (new_pos : Pt) : Pt :=
  if !is_editing then
    (detect_alignments guides_enabled snap_threshold canvas others movingRect
      movingPos new_pos).1
  else new_pos

/-! ## Scene object model (`canvas_editor.py` dataclasses) -/

/-- `CanvasImageItem` dataclass: one placed image with all its properties.
Numeric fields are `ℚ` (Python floats/ints without validation). -/
structure CanvasImageItem where
  image_path : String
  x : ℚ
  y : ℚ
  width : ℚ
  height : ℚ
  rotation : ℚ
  z_index : ℚ
  locked : Bool
  visible : Bool
  opacity : ℚ
  original_aspect_ratio : ℚ
  uuid : String
  deriving DecidableEq, Repr

/-- `TextCanvasItem` dataclass: one placed text object with all its
properties. -/
structure TextCanvasItem where
  text : String
  x : ℚ
  y : ℚ
  width : ℚ
  height : ℚ
  font_family : String
  font_size : ℚ
  font_weight : String
  font_style : String
  color : String
  background_color : String
  background_opacity : ℚ
  alignment : String
  line_height : ℚ
  letter_spacing : ℚ
  underline : Bool
  strikethrough : Bool
  text_transform : String
  shadow_enabled : Bool
  shadow_offset_x : ℚ
  shadow_offset_y : ℚ
  shadow_blur : ℚ
  shadow_color : String
  outline_enabled : Bool
  outline_width : ℚ
  outline_color : String
  rotation : ℚ
  opacity : ℚ
  z_index : ℚ
  locked : Bool
  visible : Bool
  editable : Bool
  uuid : String
  deriving DecidableEq, Repr

/-! ## JSON model

A history entry is the string `json.dumps(state)`; we represent it by the
decoded JSON value. An arbitrary argument to `restore_state` is an
`Option JValue`: `none` stands for a string `json.loads` rejects. -/

inductive JValue where
  | jnull : JValue
  | jbool : Bool → JValue
  | jnum : ℚ → JValue
  | jstr : String → JValue
  | jarr : List JValue → JValue
  | jobj : List (String × JValue) → JValue

namespace JValue

def asStr : JValue → Option String
  | .jstr s => some s
  | _ => none

def asNum : JValue → Option ℚ
  | .jnum q => some q
  | _ => none

def asBool : JValue → Option Bool
  | .jbool b => some b
  | _ => none

/-- Dictionary key access `d[k]` (`none` = `KeyError`). -/
def lookup (k : String) : JValue → Option JValue
  | .jobj kvs => kvs.lookup k
  | _ => none

end JValue

/-! ## History manager (`CanvasEditor`, `canvas_editor.py`) -/

/-- The serialized record of one image built by `save_history_state`. -/
def serialize_image (img : CanvasImageItem) : JValue :=
  .jobj
    [("path", .jstr img.image_path),
     ("x", .jnum img.x),
     ("y", .jnum img.y),
     ("width", .jnum img.width),
     ("height", .jnum img.height),
     ("rotation", .jnum img.rotation),
     ("z_index", .jnum img.z_index),
     ("opacity", .jnum img.opacity),
     ("locked", .jbool img.locked),
     ("visible", .jbool img.visible),
     ("aspect_ratio", .jnum img.original_aspect_ratio),
     ("uuid", .jstr img.uuid)]

/-- The editor state that the history manager and restore path read and
write. `history` holds the decoded forms of the JSON strings; the constant
`max_history = 50` is inlined where the source reads it. -/
structure EditorState where
  canvas_width_cm : ℚ
  canvas_height_cm : ℚ
  canvas_dpi : ℚ
  canvas_images : List CanvasImageItem
  text_items : List TextCanvasItem
  history : List JValue
  history_index : ℤ

/-- The `state` dict serialized by `save_history_state`: canvas metadata
plus the full attribute set of every `CanvasImageItem` in `canvas_images`
(and nothing else — in particular no `text_items`). -/
def serialize_state (e : EditorState) : JValue :=
  .jobj
    [("canvas_width", .jnum e.canvas_width_cm),
     ("canvas_height", .jnum e.canvas_height_cm),
     ("canvas_dpi", .jnum e.canvas_dpi),
     ("images", .jarr (e.canvas_images.map serialize_image))]

/-- `CanvasEditor.save_history_state`: truncate the redo branch when the
index is not at the tail, append the serialized state, then either drop the
oldest entry (when over `max_history = 50`, without advancing the index) or
advance the index. -/
def save_history_state (e : EditorState) : EditorState :=
  let state := serialize_state e
  -- Eliminar estados futuros si estamos en medio del historial
  let hist :=
    if e.history_index < (e.history.length : ℤ) - 1 then
      e.history.take (e.history_index + 1).toNat
    else e.history
  let hist := hist ++ [state]
  -- Limitar tamaño del historial
  if hist.length > 50 then
    { e with history := hist.drop 1 }
  else
    { e with history := hist, history_index := e.history_index + 1 }

/-! ## Restore path (`CanvasEditor.restore_state`) -/

/-- One failure record accumulated in `failed_images`: the asset reference
(path) and the reason. -/
structure FailRecord where
  path : String
  reason : String
  deriving DecidableEq, Repr

/-- Result of a `restore_state` call: the new `canvas_images` list, the
`failed_images` records surfaced (in one dialog, after the whole loop) when
non-empty, and whether the call ended in the fatal error branch (critical
dialog; in that case no failure dialog is shown, so `failed` is empty). -/
structure RestoreResult where
  canvas_images : List CanvasImageItem
  failed : List FailRecord
  fatal : Bool
  deriving DecidableEq, Repr

/-- Processing of one entry of `state['images']`:
`some (.inl item)` — restored; `some (.inr rec)` — skipped with a failure
record (`continue`); `none` — an exception that escapes the per-image
handler (a non-dict entry: the subscript raises `TypeError` and the
handler's own `img_data.get` then raises), aborting the loop.
Field order follows the source: `path` first, then the existence check,
then the remaining constructor fields (a missing one raises `KeyError`),
then the image load. A present field of the wrong JSON type fails the
load/`setup` arithmetic inside the inner `try` in the source and is
likewise skipped with a record; the embedding folds both into the
missing-field record. -/
def process_image_entry (pathExists loadOk : String → Bool) (jv : JValue) :
    Option (CanvasImageItem ⊕ FailRecord) :=
  match jv with
  | .jobj _ =>
    match (jv.lookup "path").bind JValue.asStr with
    | none => some (.inr ⟨"desconocida", "Datos incompletos"⟩)
    | some p =>
      if !pathExists p then some (.inr ⟨p, "Archivo no encontrado"⟩)
      else
        match ((jv.lookup "x").bind JValue.asNum),
              ((jv.lookup "y").bind JValue.asNum),
              ((jv.lookup "width").bind JValue.asNum),
              ((jv.lookup "height").bind JValue.asNum),
              ((jv.lookup "rotation").bind JValue.asNum),
              ((jv.lookup "z_index").bind JValue.asNum),
              ((jv.lookup "opacity").bind JValue.asNum),
              ((jv.lookup "locked").bind JValue.asBool),
              ((jv.lookup "visible").bind JValue.asBool),
              ((jv.lookup "aspect_ratio").bind JValue.asNum),
              ((jv.lookup "uuid").bind JValue.asStr) with
        | some x, some y, some w, some h, some rot, some z, some op,
          some lk, some vis, some ar, some uu =>
            if !loadOk p then some (.inr ⟨p, "Error al cargar"⟩)
            else some (.inl ⟨p, x, y, w, h, rot, z, lk, vis, op, ar, uu⟩)
        | _, _, _, _, _, _, _, _, _, _, _ =>
            some (.inr ⟨p, "Datos incompletos"⟩)
  | _ => none

/-- The restore loop over `state['images']`, carrying the lists built so
far; a `none` from an entry aborts with the fatal branch, keeping the
items already re-added to the scene (the failure dialog is then skipped). -/
def restore_images_loop (pathExists loadOk : String → Bool) :
    List JValue → List CanvasImageItem → List FailRecord → RestoreResult
  | [], imgs, failed => ⟨imgs, failed, false⟩
  | jv :: rest, imgs, failed =>
    match process_image_entry pathExists loadOk jv with
    | some (.inl item) => restore_images_loop pathExists loadOk rest (imgs ++ [item]) failed
    | some (.inr rec) => restore_images_loop pathExists loadOk rest imgs (failed ++ [rec])
    | none => ⟨imgs, [], true⟩

/-- The elements Python's `for img_data in state['images']` yields from the
value under the `'images'` key: a JSON array yields its entries, a string
yields its characters (each a one-character string), a dict yields its keys
(in order); other values are not iterable (`TypeError`). A `.jobj` models a
*decoded* dict, so its keys are unique. -/
def iterable_elems : JValue → Option (List JValue)
  | .jarr entries => some entries
  | .jstr s => some (s.data.map (fun c => .jstr (String.singleton c)))
  | .jobj kvs => some (kvs.map (fun kv => .jstr kv.1))
  | _ => none

/-- The list `state['images']` of a decoded state, when the state is a dict
with an `'images'` key holding a JSON array (`none` otherwise) — the shape
every snapshot the editor itself writes has. -/
def images_list (state : JValue) : Option (List JValue) :=
  match state.lookup "images" with
  | some (.jarr entries) => some entries
  | _ => none

/-- `CanvasEditor.restore_state(state_json)`. `none` stands for input
`json.loads` rejects: nothing has touched the scene yet, the error is
surfaced in the critical dialog. On decodable input the scene's image
items are removed and `canvas_images` cleared *before* the structure is
read, so every later failure leaves the scene cleared: a missing
`'images'` key (`KeyError`, also the `TypeError` of subscripting a
non-dict state) and a non-iterable `'images'` value (`TypeError`) reach
the outer handler with the error surfaced in the critical dialog. An
iterable non-list `'images'` (string or dict) is iterated element by
element: the degenerate empty string/dict iterates zero times and the
call completes silently with the scene cleared and no error, while a
non-empty one aborts on its first (string) element inside the loop (see
`restore_images_loop`). -/
def restore_state (pathExists loadOk : String → Bool)
    (old : List CanvasImageItem) : Option JValue → RestoreResult
  | none => ⟨old, [], true⟩
  | some state =>
    match state.lookup "images" with
    | none => ⟨[], [], true⟩
    | some img_val =>
      match iterable_elems img_val with
      | none => ⟨[], [], true⟩
      | some entries => restore_images_loop pathExists loadOk entries [] []

/-- The image an entry of `state['images']` contributes to the restored
scene, if any. -/
def entry_restored (pathExists loadOk : String → Bool) (jv : JValue) :
    Option CanvasImageItem :=
  match process_image_entry pathExists loadOk jv with
  | some (.inl item) => some item
  | _ => none

/-- The failure record an entry of `state['images']` contributes, if any. -/
def entry_failure (pathExists loadOk : String → Bool) (jv : JValue) :
    Option FailRecord :=
  match process_image_entry pathExists loadOk jv with
  | some (.inr rec) => some rec
  | _ => none

/-- `CanvasEditor.undo`: when the index is positive, decrement it and
restore from the entry at the new index. Only `canvas_images` is rebuilt
(`restore_state` removes image items only; text items survive). The
out-of-range `get?` case cannot occur for a valid index and leaves the
state unchanged. -/
def undo (pathExists loadOk : String → Bool) (e : EditorState) : EditorState :=
  if e.history_index > 0 then
    match e.history.get? (e.history_index - 1).toNat with
    | some s =>
        { e with history_index := e.history_index - 1,
                 canvas_images :=
                   (restore_state pathExists loadOk e.canvas_images (some s)).canvas_images }
    | none => e
  else e

/-- `CanvasEditor.redo`: symmetric to `undo` at the other end. -/
def redo (pathExists loadOk : String → Bool) (e : EditorState) : EditorState :=
  if e.history_index < (e.history.length : ℤ) - 1 then
    match e.history.get? (e.history_index + 1).toNat with
    | some s =>
        { e with history_index := e.history_index + 1,
                 canvas_images :=
                   (restore_state pathExists loadOk e.canvas_images (some s)).canvas_images }
    | none => e
  else e

/-! ## Editor operations as a step relation -/

/-- The operations that touch the scene or the history: an arbitrary scene
mutation (which never touches the history fields), a capture, an undo, a
redo. -/
inductive EdOp where
  | mutate (imgs : List CanvasImageItem) (txts : List TextCanvasItem)
  | capture
  | hundo
  | hredo

def step (pathExists loadOk : String → Bool) (e : EditorState) : EdOp → EditorState
  | .mutate imgs txts => { e with canvas_images := imgs, text_items := txts }
  | .capture => save_history_state e
  | .hundo => undo pathExists loadOk e
  | .hredo => redo pathExists loadOk e

/-- The editor's initial state (`CanvasEditor.__init__`): A4 canvas at
96 DPI, empty scene, empty history with `history_index = -1`. -/
def initState : EditorState :=
  { canvas_width_cm := 21, canvas_height_cm := 29.7, canvas_dpi := 96,
    canvas_images := [], text_items := [], history := [], history_index := -1 }

def run (pathExists loadOk : String → Bool) (ops : List EdOp) : EditorState :=
  ops.foldl (step pathExists loadOk) initState

/-- The history-stack well-formedness invariant: at most `max_history`
entries, the index at least `-1`, strictly below the length, and `-1`
exactly on the empty history. -/
def HistoryWF (e : EditorState) : Prop :=
  e.history.length ≤ 50 ∧ -1 ≤ e.history_index ∧
    e.history_index < (e.history.length : ℤ) ∧
    (e.history_index = -1 ↔ e.history = [])

/-! ## Concrete sample data used by counterexamples and witnesses -/

/-- A sample placed image. -/
def demo_img : CanvasImageItem :=
  ⟨"a.png", 1, 2, 3, 4, 0, 0, false, true, 1, 1, "u-a"⟩

/-- A second sample image whose asset is missing. -/
def demo_missing_img : CanvasImageItem :=
  ⟨"missing.png", 5, 6, 7, 8, 0, 1, false, true, 1, 1, "u-b"⟩

/-- A sample placed text object (all `TextCanvasItem` defaults). -/
def demo_text : TextCanvasItem :=
  ⟨"hola", 1, 1, 5, 2, "Arial", 16, "normal", "normal", "#000000",
   "transparent", 0, "left", 1.2, 0, false, false, "none", false, 2, 2, 4,
   "#00000080", false, 1, "#000000", 0, 1, 0, false, true, true, "u-t"⟩

/-- Asset resolution that only knows `demo_img`'s path. -/
def demo_resolve : String → Bool := fun s => s == "a.png"

/-- Asset resolution/loading that always succeeds. -/
def all_ok : String → Bool := fun _ => true

/-! # Supporting lemmas -/

/-! ## Angle snapping -/

lemma pymod360_eq_fract (a : ℚ) : pymod360 a = 360 * Int.fract (a / 360) := by
  unfold pymod360 Int.fract
  field_simp

lemma pymod360_nonneg (a : ℚ) : 0 ≤ pymod360 a := by
  rw [pymod360_eq_fract]
  have h := Int.fract_nonneg (a / 360)
  positivity

lemma pymod360_lt (a : ℚ) : pymod360 a < 360 := by
  rw [pymod360_eq_fract]
  have h := Int.fract_lt_one (a / 360)
  nlinarith [h]

/-- The snap table is exactly the multiples `15 * k` for `k < 25`. -/
lemma snapAngles_eq : snapAngles = (List.range 25).map (fun k : ℕ => (15 : ℚ) * k) := by
  simp [snapAngles, List.range_succ]
  norm_num

/-- Every entry of the snap table is a multiple of 15 with index at most 24. -/
lemma snapAngles_mul15 (s : ℚ) (hs : s ∈ snapAngles) :
    ∃ k : ℕ, k ≤ 24 ∧ s = 15 * k := by
  rw [snapAngles_eq] at hs
  obtain ⟨k, hk, he⟩ := List.mem_map.mp hs
  exact ⟨k, Nat.lt_succ_iff.mp (List.mem_range.mp hk), he.symm⟩

lemma mul15_mem_snapAngles (k : ℕ) (hk : k ≤ 24) : (15 * (k : ℚ)) ∈ snapAngles := by
  rw [snapAngles_eq]
  exact List.mem_map.mpr ⟨k, List.mem_range.mpr (by omega), rfl⟩

/-- With the default threshold of 15°, `snap_angle` always returns a table
entry (a multiple of 15°) within 15° of the normalized input angle. -/
lemma snap_angle_15_spec (a : ℚ) :
    (∃ k : ℕ, k ≤ 24 ∧ snap_angle a 15 = 15 * k) ∧
      |snap_angle a 15 - pymod360 a| < 15 := by
  have h0 : 0 ≤ pymod360 a := pymod360_nonneg a
  have h1 : pymod360 a < 360 := pymod360_lt a
  -- the nearest multiple of 15 is an admissible table entry
  have hk0l : 0 ≤ round (pymod360 a / 15) := by
    rw [round_eq]
    have hp : (0 : ℚ) ≤ pymod360 a / 15 + 1 / 2 := by positivity
    exact_mod_cast Int.floor_nonneg.mpr hp
  have hk0u : round (pymod360 a / 15) ≤ 24 := by
    rw [round_eq]
    have hle : pymod360 a / 15 + 1 / 2 < 25 := by
      have hq : pymod360 a / 15 < 24 := by linarith [h1]
      linarith
    have h25 : ⌊pymod360 a / 15 + 1 / 2⌋ < (25 : ℤ) := Int.floor_lt.mpr (by exact_mod_cast hle)
    omega
  have hnear : |pymod360 a - 15 * round (pymod360 a / 15)| ≤ 15 / 2 := by
    have h := abs_sub_round (pymod360 a / 15)
    have h15 : |15 * (pymod360 a / 15 - round (pymod360 a / 15))| ≤ 15 * (1 / 2) := by
      rw [abs_mul]
      have ha : |(15 : ℚ)| = 15 := by norm_num
      rw [ha]
      linarith
    calc |pymod360 a - 15 * round (pymod360 a / 15)|
        = |15 * (pymod360 a / 15 - round (pymod360 a / 15))| := by ring_nf
      _ ≤ 15 / 2 := by linarith
  have hmem : (15 * ((round (pymod360 a / 15)).toNat : ℚ)) ∈ snapAngles := by
    apply mul15_mem_snapAngles
    omega
  have hcast : (((round (pymod360 a / 15)).toNat : ℚ)) = ((round (pymod360 a / 15) : ℤ) : ℚ) := by
    exact_mod_cast Int.toNat_of_nonneg hk0l
  have hgood : (decide (|pymod360 a - 15 * ((round (pymod360 a / 15)).toNat : ℚ)| < 15) : Bool)
      = true := by
    rw [decide_eq_true_iff, hcast]
    calc |pymod360 a - 15 * ((round (pymod360 a / 15) : ℤ) : ℚ)| ≤ 15 / 2 := hnear
      _ < 15 := by norm_num
  -- the scan therefore finds some entry
  rcases hf : snapAngles.find? (fun snap => decide (|pymod360 a - snap| < 15)) with _ | s
  · exfalso
    have hnone := List.find?_eq_none.mp hf _ hmem
    rw [hgood] at hnone
    exact hnone rfl
  · have hpred := List.find?_some hf
    have hsmem : s ∈ snapAngles := List.mem_of_find?_eq_some hf
    have hval : snap_angle a 15 = s := by
      show (snapAngles.find? (fun snap => decide (|pymod360 a - snap| < 15))).getD a = s
      rw [hf]
      rfl
    obtain ⟨k, hk, hks⟩ := snapAngles_mul15 s hsmem
    refine ⟨⟨k, hk, by rw [hval, hks]⟩, ?_⟩
    rw [hval]
    have hlt := of_decide_eq_true hpred
    rw [abs_sub_comm]
    exact hlt

lemma pymod360_of_range (x : ℚ) (h0 : 0 ≤ x) (h1 : x < 360) : pymod360 x = x := by
  unfold pymod360
  have hz : ⌊x / 360⌋ = 0 := by
    rw [Int.floor_eq_zero_iff]
    constructor
    · positivity
    · rw [div_lt_one (by norm_num)]
      simpa using h1
  rw [hz]
  ring

/-! ## Resize: ratio preservation in the aspect branch -/

/-- For corner handles without free transform, the pre-clamp dimensions are
linked by the original aspect ratio (one is derived from the other). -/
lemma corner_fix_pos_width (h : HandleType) (st c : Transform) :
    (corner_fix_pos h st c).width = c.width := by
  cases h <;> rfl

lemma corner_fix_pos_height (h : HandleType) (st c : Transform) :
    (corner_fix_pos h st c).height = c.height := by
  cases h <;> rfl

lemma corner_aspect_ratio (st c : Transform) (r : ℚ) :
    (corner_aspect st c r).height = (corner_aspect st c r).width / r ∨
    (corner_aspect st c r).width = (corner_aspect st c r).height * r := by
  unfold corner_aspect
  split_ifs <;> simp

/-- For corner handles without free transform, the pre-clamp dimensions are
linked by the original aspect ratio (one is derived from the other). -/
lemma resize_raw_corner_ratio (h : HandleType) (st : Transform) (d : Pt)
    (ka : Bool) (r : ℚ) (hc : h.isCorner = true) :
    (resize_raw h st d ka false r).height = (resize_raw h st d ka false r).width / r ∨
    (resize_raw h st d ka false r).width = (resize_raw h st d ka false r).height * r := by
  have hraw : resize_raw h st d ka false r =
      corner_fix_pos h st (corner_aspect st (corner_raw h st d) r) := by
    unfold resize_raw
    rw [if_pos hc]
    rfl
  rw [hraw, corner_fix_pos_width, corner_fix_pos_height]
  exact corner_aspect_ratio st (corner_raw h st d) r

/-! ## Restore/serialize round trip -/

/-- A serialized image whose asset resolves and loads is restored exactly,
field by field. -/
lemma process_serialize (pE lO : String → Bool) (img : CanvasImageItem)
    (h1 : pE img.image_path = true) (h2 : lO img.image_path = true) :
    process_image_entry pE lO (serialize_image img) = some (.inl img) := by
  simp [process_image_entry, serialize_image, JValue.lookup, List.lookup, JValue.asStr,
    JValue.asNum, JValue.asBool, h1, h2]

lemma restore_loop_all_ok (pE lO : String → Bool) (imgs : List CanvasImageItem)
    (hres : ∀ img ∈ imgs, pE img.image_path = true ∧ lO img.image_path = true) :
    ∀ acc : List CanvasImageItem,
      restore_images_loop pE lO (imgs.map serialize_image) acc [] =
        ⟨acc ++ imgs, [], false⟩ := by
  induction imgs with
  | nil =>
    intro acc
    simp [restore_images_loop]
  | cons i rest ih =>
    intro acc
    have h1 := (hres i (by simp)).1
    have h2 := (hres i (by simp)).2
    simp only [List.map_cons, restore_images_loop, process_serialize pE lO i h1 h2]
    rw [ih (fun img hm => hres img (by simp [hm])) (acc ++ [i])]
    simp

/-- On a state whose `'images'` key holds a JSON array, `restore_state`
is exactly the restore loop over its entries. -/
lemma restore_state_eq_loop (pE lO : String → Bool) (old : List CanvasImageItem)
    (v : JValue) (entries : List JValue) (him : images_list v = some entries) :
    restore_state pE lO old (some v) = restore_images_loop pE lO entries [] [] := by
  unfold images_list at him
  rcases h : v.lookup "images" with _ | jv
  · rw [h] at him
    exact absurd him (by simp)
  · rw [h] at him
    rcases jv with _ | b | q | s | l | kvs <;> simp at him
    simp [restore_state, h, iterable_elems, him]

/-- Restoring a state produced by `save_history_state` recovers exactly the
serialized image list (when every asset resolves and loads), with no
failures and no fatal error. -/
lemma restore_serialize_round_trip (pE lO : String → Bool)
    (old : List CanvasImageItem) (e : EditorState)
    (hres : ∀ img ∈ e.canvas_images, pE img.image_path = true ∧ lO img.image_path = true) :
    restore_state pE lO old (some (serialize_state e)) = ⟨e.canvas_images, [], false⟩ := by
  have him : images_list (serialize_state e)
      = some (e.canvas_images.map serialize_image) := by
    simp [images_list, serialize_state, JValue.lookup, List.lookup]
  rw [restore_state_eq_loop pE lO old _ _ him]
  simpa using restore_loop_all_ok pE lO e.canvas_images hres []

/-! ## History stack structure -/

/-- `save_history_state` from a well-formed state: the new history is some
prefix of at most 49 entries followed by the fresh snapshot, the index
points at the fresh snapshot (the tail), and the scene is untouched. -/
lemma save_history_spec (e : EditorState) (hwf : HistoryWF e) :
    ∃ pre : List JValue, pre.length ≤ 49 ∧
      (save_history_state e).history = pre ++ [serialize_state e] ∧
      (save_history_state e).history_index = (pre.length : ℤ) ∧
      (save_history_state e).canvas_images = e.canvas_images ∧
      (save_history_state e).text_items = e.text_items := by
  obtain ⟨hlen, hgeb, hlt, _hemp⟩ := hwf
  simp only [save_history_state]
  by_cases htr : e.history_index < (e.history.length : ℤ) - 1
  · rw [if_pos htr]
    have hnn : 0 ≤ e.history_index + 1 := by omega
    have htk : (e.history.take (e.history_index + 1).toNat).length
        = (e.history_index + 1).toNat := by
      simp [List.length_take]
      omega
    rw [if_neg (by simp only [List.length_append, htk, List.length_cons,
      List.length_nil]; omega)]
    refine ⟨e.history.take (e.history_index + 1).toNat, by omega, rfl, ?_, rfl, rfl⟩
    show e.history_index + 1 = ((e.history.take (e.history_index + 1).toNat).length : ℤ)
    rw [htk]
    omega
  · rw [if_neg htr]
    by_cases hcap : (e.history ++ [serialize_state e]).length > 50
    · rw [if_pos hcap]
      simp only [List.length_append, List.length_cons, List.length_nil] at hcap
      have hne : e.history ≠ [] := by
        intro h
        rw [h] at hcap
        simp at hcap
      refine ⟨e.history.drop 1, ?_, ?_, ?_, rfl, rfl⟩
      · simp only [List.length_drop]
        omega
      · exact List.drop_append_of_le_length (by omega)
      · show e.history_index = ((e.history.drop 1).length : ℤ)
        simp only [List.length_drop]
        omega
    · rw [if_neg hcap]
      simp only [List.length_append, List.length_cons, List.length_nil] at hcap
      refine ⟨e.history, by omega, rfl, ?_, rfl, rfl⟩
      show e.history_index + 1 = (e.history.length : ℤ)
      omega

lemma save_history_dims (e : EditorState) :
    (save_history_state e).canvas_width_cm = e.canvas_width_cm ∧
    (save_history_state e).canvas_height_cm = e.canvas_height_cm ∧
    (save_history_state e).canvas_dpi = e.canvas_dpi := by
  simp only [save_history_state]
  split_ifs <;> exact ⟨rfl, rfl, rfl⟩

lemma save_preserves_wf (e : EditorState) (hwf : HistoryWF e) :
    HistoryWF (save_history_state e) := by
  obtain ⟨pre, hp, hh, hi, _, _⟩ := save_history_spec e hwf
  refine ⟨?_, ?_, ?_, ?_⟩
  · rw [hh]
    simp
    omega
  · rw [hi]
    omega
  · rw [hh, hi]
    simp
  · constructor
    · intro habs
      rw [hi] at habs
      omega
    · intro habs
      rw [hh] at habs
      exact absurd habs (by simp)

lemma undo_history (pE lO : String → Bool) (e : EditorState) :
    (undo pE lO e).history = e.history := by
  unfold undo
  split_ifs <;> first | rfl | (split <;> rfl)

lemma undo_index_cases (pE lO : String → Bool) (e : EditorState) :
    (undo pE lO e).history_index = e.history_index ∨
    ((undo pE lO e).history_index = e.history_index - 1 ∧ 0 < e.history_index) := by
  unfold undo
  split_ifs with hpos
  · split
    · exact Or.inr ⟨rfl, hpos⟩
    · exact Or.inl rfl
  · exact Or.inl rfl

lemma redo_history (pE lO : String → Bool) (e : EditorState) :
    (redo pE lO e).history = e.history := by
  unfold redo
  split_ifs <;> first | rfl | (split <;> rfl)

lemma redo_index_cases (pE lO : String → Bool) (e : EditorState) :
    (redo pE lO e).history_index = e.history_index ∨
    ((redo pE lO e).history_index = e.history_index + 1 ∧
      e.history_index < (e.history.length : ℤ) - 1) := by
  unfold redo
  split_ifs with hpos
  · split
    · exact Or.inr ⟨rfl, hpos⟩
    · exact Or.inl rfl
  · exact Or.inl rfl

lemma undo_preserves_wf (pE lO : String → Bool) (e : EditorState)
    (hwf : HistoryWF e) : HistoryWF (undo pE lO e) := by
  obtain ⟨hlen, hgeb, hlt, hemp⟩ := hwf
  refine ⟨?_, ?_, ?_, ?_⟩
  · rw [undo_history]
    exact hlen
  · rcases undo_index_cases pE lO e with h | ⟨h, hp⟩ <;> omega
  · rw [undo_history]
    rcases undo_index_cases pE lO e with h | ⟨h, hp⟩ <;> omega
  · rw [undo_history]
    constructor
    · intro habs
      rcases undo_index_cases pE lO e with h | ⟨h, hp⟩
      · exact hemp.mp (by omega)
      · exact absurd hp (by omega)
    · intro habs
      have hm1 := hemp.mpr habs
      rcases undo_index_cases pE lO e with h | ⟨h, hp⟩ <;> omega

lemma redo_preserves_wf (pE lO : String → Bool) (e : EditorState)
    (hwf : HistoryWF e) : HistoryWF (redo pE lO e) := by
  obtain ⟨hlen, hgeb, hlt, hemp⟩ := hwf
  refine ⟨?_, ?_, ?_, ?_⟩
  · rw [redo_history]
    exact hlen
  · rcases redo_index_cases pE lO e with h | ⟨h, hp⟩ <;> omega
  · rw [redo_history]
    rcases redo_index_cases pE lO e with h | ⟨h, hp⟩ <;> omega
  · rw [redo_history]
    constructor
    · intro habs
      rcases redo_index_cases pE lO e with h | ⟨h, hp⟩
      · exact hemp.mp (by omega)
      · have hm1 : -1 ≤ (e.history.length : ℤ) - 1 := by omega
        exact hemp.mp (by omega)
    · intro habs
      have hm1 := hemp.mpr habs
      have hlen0 : e.history.length = 0 := by
        rw [habs]
        rfl
      rcases redo_index_cases pE lO e with h | ⟨h, hp⟩ <;> omega

lemma step_preserves_wf (pE lO : String → Bool) (e : EditorState) (op : EdOp)
    (hwf : HistoryWF e) : HistoryWF (step pE lO e op) := by
  cases op with
  | mutate imgs txts => exact hwf
  | capture => exact save_preserves_wf e hwf
  | hundo => exact undo_preserves_wf pE lO e hwf
  | hredo => exact redo_preserves_wf pE lO e hwf

lemma initState_wf : HistoryWF initState :=
  ⟨by simp [initState], by simp [initState], by simp [initState],
   ⟨fun _ => rfl, fun _ => rfl⟩⟩

lemma run_wf (pE lO : String → Bool) (ops : List EdOp) : HistoryWF (run pE lO ops) := by
  suffices h : ∀ e, HistoryWF e → HistoryWF (ops.foldl (step pE lO) e) from
    h initState initState_wf
  induction ops with
  | nil => exact fun e he => he
  | cons op rest ih =>
    intro e he
    exact ih _ (step_preserves_wf pE lO e op he)

/-- `save_history_state` issued while the index is not at the tail prunes
everything after the index before appending. -/
lemma save_truncates (e : EditorState) (hlen : e.history.length ≤ 50)
    (hmid : e.history_index < (e.history.length : ℤ) - 1) :
    (save_history_state e).history =
      e.history.take (e.history_index + 1).toNat ++ [serialize_state e] := by
  simp only [save_history_state]
  rw [if_pos hmid]
  rw [if_neg (by simp only [List.length_append, List.length_take, List.length_cons,
    List.length_nil]; omega)]

/-- `save_history_state` at the cap with the index at the tail: the oldest
snapshot is dropped, the length stays 50, and the index stays at the tail. -/
lemma save_at_cap (e : EditorState) (hlen50 : e.history.length = 50)
    (hidx : e.history_index = 49) :
    (save_history_state e).history = e.history.drop 1 ++ [serialize_state e] ∧
    (save_history_state e).history.length = 50 ∧
    (save_history_state e).history_index = 49 := by
  simp only [save_history_state]
  have hcond : ¬(e.history_index < (e.history.length : ℤ) - 1) := by omega
  rw [if_neg hcond]
  have hcap : (e.history ++ [serialize_state e]).length > 50 := by
    simp only [List.length_append, List.length_cons, List.length_nil]
    omega
  rw [if_pos hcap]
  refine ⟨?_, ?_, ?_⟩
  · show (e.history ++ [serialize_state e]).drop 1 = e.history.drop 1 ++ [serialize_state e]
    exact List.drop_append_of_le_length (by omega)
  · show ((e.history ++ [serialize_state e]).drop 1).length = 50
    simp only [List.length_drop, List.length_append, List.length_cons, List.length_nil]
    omega
  · exact hidx

/-- `save_history_state` from a state whose index is already at the tail of
`pre ++ [s0]` appends the new snapshot right after `s0` (dropping the
oldest entry when over the cap) and leaves the index on the new tail. -/
lemma save_at_tail_spec (e : EditorState) (pre : List JValue) (s0 : JValue)
    (hh : e.history = pre ++ [s0]) (hlen : e.history.length ≤ 50)
    (hidx : e.history_index = (pre.length : ℤ)) :
    ∃ q : List JValue,
      (save_history_state e).history = q ++ [s0, serialize_state e] ∧
      (save_history_state e).history_index = (q.length : ℤ) + 1 ∧
      (save_history_state e).canvas_images = e.canvas_images := by
  have hlen' : e.history.length = pre.length + 1 := by
    rw [hh]
    simp
  simp only [save_history_state]
  have hcond : ¬(e.history_index < (e.history.length : ℤ) - 1) := by omega
  rw [if_neg hcond]
  by_cases hcap : (e.history ++ [serialize_state e]).length > 50
  · rw [if_pos hcap]
    simp only [List.length_append, List.length_cons, List.length_nil] at hcap
    have hpne : 1 ≤ pre.length := by omega
    refine ⟨pre.drop 1, ?_, ?_, rfl⟩
    · rw [hh, List.append_assoc]
      rw [List.drop_append_of_le_length (by omega)]
      rfl
    · simp only [List.length_drop]
      omega
  · rw [if_neg hcap]
    refine ⟨pre, ?_, ?_, rfl⟩
    · rw [hh, List.append_assoc]
      rfl
    · show e.history_index + 1 = (pre.length : ℤ) + 1
      omega

/-- `undo` on a history `q ++ [s0, s2]` with the index on `s2` moves the
index one left and rebuilds the scene from `s0`. -/
lemma undo_step_spec (pE lO : String → Bool) (e : EditorState) (q : List JValue)
    (s0 s2 : JValue) (hh : e.history = q ++ [s0, s2])
    (hidx : e.history_index = (q.length : ℤ) + 1) :
    (undo pE lO e).canvas_images =
      (restore_state pE lO e.canvas_images (some s0)).canvas_images ∧
    (undo pE lO e).history_index = (q.length : ℤ) ∧
    (undo pE lO e).history = e.history ∧
    (undo pE lO e).canvas_width_cm = e.canvas_width_cm ∧
    (undo pE lO e).canvas_height_cm = e.canvas_height_cm ∧
    (undo pE lO e).canvas_dpi = e.canvas_dpi := by
  have hget : e.history.get? (e.history_index - 1).toNat = some s0 := by
    rw [hh, hidx]
    have ht : ((q.length : ℤ) + 1 - 1).toNat = q.length := by omega
    rw [ht]
    rw [List.get?_append_right (le_refl _)]
    simp
  unfold undo
  rw [if_pos (by omega)]
  rw [hget]
  refine ⟨rfl, ?_, rfl, rfl, rfl, rfl⟩
  show e.history_index - 1 = (q.length : ℤ)
  omega

/-- `redo` on a history `q ++ [s0, s2]` with the index on `s0` moves the
index one right and rebuilds the scene from `s2`. -/
lemma redo_step_spec (pE lO : String → Bool) (e : EditorState) (q : List JValue)
    (s0 s2 : JValue) (hh : e.history = q ++ [s0, s2])
    (hidx : e.history_index = (q.length : ℤ)) :
    (redo pE lO e).canvas_images =
      (restore_state pE lO e.canvas_images (some s2)).canvas_images ∧
    (redo pE lO e).history_index = (q.length : ℤ) + 1 := by
  have hlen : e.history.length = q.length + 2 := by
    rw [hh]
    simp
  have hget : e.history.get? (e.history_index + 1).toNat = some s2 := by
    rw [hh, hidx]
    have ht : ((q.length : ℤ) + 1).toNat = q.length + 1 := by omega
    rw [ht]
    rw [List.get?_append_right (by omega)]
    have hs : q.length + 1 - q.length = 1 := by omega
    rw [hs]
    simp
  unfold redo
  rw [if_pos (by omega)]
  rw [hget]
  refine ⟨rfl, ?_⟩
  show e.history_index + 1 = (q.length : ℤ) + 1
  omega

/-- The restore loop over entries none of which is fatal: each entry
contributes independently either a restored image or a failure record, in
order, and the loop never aborts. -/
lemma restore_loop_characterization (pE lO : String → Bool) (entries : List JValue)
    (hobj : ∀ jv ∈ entries, process_image_entry pE lO jv ≠ none) :
    ∀ acc fl, restore_images_loop pE lO entries acc fl =
      ⟨acc ++ entries.filterMap (entry_restored pE lO),
       fl ++ entries.filterMap (entry_failure pE lO), false⟩ := by
  induction entries with
  | nil =>
    intro acc fl
    simp [restore_images_loop]
  | cons jv rest ih =>
    intro acc fl
    have hne := hobj jv (by simp)
    rcases hp : process_image_entry pE lO jv with _ | v
    · exact absurd hp hne
    · rcases v with item | rec
      · simp only [restore_images_loop, hp]
        rw [ih (fun j hj => hobj j (by simp [hj])) (acc ++ [item]) fl]
        simp [entry_restored, entry_failure, hp, List.filterMap_cons]
      · simp only [restore_images_loop, hp]
        rw [ih (fun j hj => hobj j (by simp [hj])) acc (fl ++ [rec])]
        simp [entry_restored, entry_failure, hp, List.filterMap_cons]

lemma save_len_idx (e : EditorState)
    (hidx : e.history_index = (e.history.length : ℤ) - 1)
    (hlen : e.history.length ≤ 49) :
    (save_history_state e).history.length = e.history.length + 1 ∧
    (save_history_state e).history_index = (e.history.length : ℤ) := by
  simp only [save_history_state]
  have hcond : ¬(e.history_index < (e.history.length : ℤ) - 1) := by omega
  rw [if_neg hcond]
  have hcap : ¬((e.history ++ [serialize_state e]).length > 50) := by
    simp only [List.length_append, List.length_cons, List.length_nil]
    omega
  rw [if_neg hcap]
  constructor
  · show (e.history ++ [serialize_state e]).length = e.history.length + 1
    simp
  · show e.history_index + 1 = (e.history.length : ℤ)
    omega

/-- After `n ≤ 50` consecutive captures from the initial state, the stack
holds exactly `n` snapshots with the index at the tail. -/
lemma run_captures (pE lO : String → Bool) :
    ∀ n ≤ 50,
      (run pE lO (List.replicate n EdOp.capture)).history.length = n ∧
      (run pE lO (List.replicate n EdOp.capture)).history_index = (n : ℤ) - 1 := by
  intro n
  induction n with
  | zero =>
    intro _
    exact ⟨rfl, rfl⟩
  | succ k ih =>
    intro hk
    have hrun : run pE lO (List.replicate (k + 1) EdOp.capture)
        = save_history_state (run pE lO (List.replicate k EdOp.capture)) := by
      rw [List.replicate_succ']
      unfold run
      rw [List.foldl_append]
      rfl
    obtain ⟨ihl, ihi⟩ := ih (by omega)
    obtain ⟨hl, hi⟩ := save_len_idx (run pE lO (List.replicate k EdOp.capture))
      (by rw [ihi, ihl]) (by omega)
    constructor
    · rw [hrun, hl, ihl]
    · rw [hrun, hi, ihl]
      omega

/-! # Claim theorems -/

/-- C4 (counterexample): a constrained SE-corner resize of a 200×100 object
(original ratio 2) with pointer delta (-190, -10) hits the 20-unit floor on
both dimensions and ends 20×20 — the final ratio is 1, not the original
aspect ratio 2. -/
theorem C4_counterexample :
    perform_resize .corner_se ⟨0, 0, 200, 100⟩ ⟨-190, -10⟩ false false 2
      = ⟨0, 0, 20, 20⟩ ∧
    ¬((perform_resize .corner_se ⟨0, 0, 200, 100⟩ ⟨-190, -10⟩ false false 2).width /
        (perform_resize .corner_se ⟨0, 0, 200, 100⟩ ⟨-190, -10⟩ false false 2).height
      = 2) := by
  have hr : perform_resize .corner_se ⟨0, 0, 200, 100⟩ ⟨-190, -10⟩ false false 2
      = ⟨0, 0, 20, 20⟩ := by
    norm_num [perform_resize, resize_raw, corner_raw, corner_aspect, corner_fix_pos,
      HandleType.isCorner, abs_of_nonneg, abs_of_nonpos]
  refine ⟨hr, ?_⟩
  rw [hr]
  norm_num

/-- C4 (amended): for every corner-handle resize with free transform off, as
long as the minimum-size clamp does not fire (both pre-clamp dimensions
are at least the 20-unit floor) and the ratio is positive, the final
dimensions satisfy `width / height = original_aspect_ratio` exactly. -/
theorem C4_corner_resize_keeps_ratio (h : HandleType) (st : Transform) (d : Pt)
    (ka : Bool) (r : ℚ) (hc : h.isCorner = true) (hr : 0 < r)
    (hw : 20 ≤ (resize_raw h st d ka false r).width)
    (hh : 20 ≤ (resize_raw h st d ka false r).height) :
    (perform_resize h st d ka false r).width /
      (perform_resize h st d ka false r).height = r := by
  have hpw : (perform_resize h st d ka false r).width
      = (resize_raw h st d ka false r).width := by
    simp only [perform_resize]
    exact max_eq_right hw
  have hph : (perform_resize h st d ka false r).height
      = (resize_raw h st d ka false r).height := by
    simp only [perform_resize]
    exact max_eq_right hh
  have hwpos : (resize_raw h st d ka false r).width ≠ 0 := by
    intro h0
    rw [h0] at hw
    norm_num at hw
  have hhpos : (resize_raw h st d ka false r).height ≠ 0 := by
    intro h0
    rw [h0] at hh
    norm_num at hh
  have hrne : r ≠ 0 := ne_of_gt hr
  rw [hpw, hph]
  rcases resize_raw_corner_ratio h st d ka r hc with he | he
  · rw [he]
    field_simp
  · rw [he]
    field_simp

/-- C4 witness: a constrained SE-corner resize of a square by (+50, +50)
keeps ratio 1. -/
theorem C4_corner_resize_keeps_ratio_witness :
    (HandleType.corner_se.isCorner = true) ∧ ((0 : ℚ) < 1) ∧
    (20 ≤ (resize_raw .corner_se ⟨0, 0, 100, 100⟩ ⟨50, 50⟩ false false 1).width) ∧
    (20 ≤ (resize_raw .corner_se ⟨0, 0, 100, 100⟩ ⟨50, 50⟩ false false 1).height) ∧
    (perform_resize .corner_se ⟨0, 0, 100, 100⟩ ⟨50, 50⟩ false false 1).width /
      (perform_resize .corner_se ⟨0, 0, 100, 100⟩ ⟨50, 50⟩ false false 1).height = 1 := by
  have hw : 20 ≤ (resize_raw .corner_se ⟨0, 0, 100, 100⟩ ⟨50, 50⟩ false false 1).width := by
    norm_num [resize_raw, corner_raw, corner_aspect, corner_fix_pos, HandleType.isCorner,
      abs_of_nonneg, abs_of_nonpos]
  have hh : 20 ≤ (resize_raw .corner_se ⟨0, 0, 100, 100⟩ ⟨50, 50⟩ false false 1).height := by
    norm_num [resize_raw, corner_raw, corner_aspect, corner_fix_pos, HandleType.isCorner,
      abs_of_nonneg, abs_of_nonpos]
  exact ⟨by decide, by norm_num, hw, hh,
    C4_corner_resize_keeps_ratio .corner_se ⟨0, 0, 100, 100⟩ ⟨50, 50⟩ false 1
      (by decide) (by norm_num) hw hh⟩

/-- C5 (counterexample): in `DraggableImageItem.mouseMoveEvent`, a BR-corner
resize of a 100×20 pixmap by delta (-200, 0) with aspect lock (Shift) held
yields width 10 but derived height 2 — below the 10-unit floor. -/
theorem C5_counterexample :
    draggable_resize_dims .br 100 20 ⟨-200, 0⟩ true = (10, 2) ∧
    ¬(10 ≤ (draggable_resize_dims .br 100 20 ⟨-200, 0⟩ true).2) := by
  have hr : draggable_resize_dims .br 100 20 ⟨-200, 0⟩ true = (10, 2) := by
    norm_num [draggable_resize_dims, DHandle.isCorner]
  refine ⟨hr, ?_⟩
  rw [hr]
  norm_num

/-- C5 (amended): `perform_resize` (unnamed module) always clamps both
final dimensions to at least 20. In `DraggableImageItem.mouseMoveEvent`
(floor 10), corner resizes without aspect lock clamp both dimensions, and
side handles clamp their driven dimension; with aspect lock only the width
is clamped — the derived height is merely positive (for positive start
dimensions), and in particular never NaN or negative. -/
theorem C5_min_size_floor :
    (∀ (h : HandleType) (st : Transform) (d : Pt) (ka ft : Bool) (r : ℚ),
      20 ≤ (perform_resize h st d ka ft r).width ∧
      20 ≤ (perform_resize h st d ka ft r).height) ∧
    (∀ (h : DHandle) (rw rh : ℚ) (d : Pt), h.isCorner = true →
      10 ≤ (draggable_resize_dims h rw rh d false).1 ∧
      10 ≤ (draggable_resize_dims h rw rh d false).2) ∧
    (∀ (h : DHandle) (rw rh : ℚ) (d : Pt), h.isCorner = true →
      0 < rw → 0 < rh →
      10 ≤ (draggable_resize_dims h rw rh d true).1 ∧
      0 < (draggable_resize_dims h rw rh d true).2) ∧
    (∀ (rw rh : ℚ) (d : Pt) (ma : Bool),
      10 ≤ (draggable_resize_dims .r rw rh d ma).1 ∧
      10 ≤ (draggable_resize_dims .l rw rh d ma).1 ∧
      10 ≤ (draggable_resize_dims .b rw rh d ma).2 ∧
      10 ≤ (draggable_resize_dims .t rw rh d ma).2) := by
  refine ⟨?_, ?_, ?_, ?_⟩
  · intro h st d ka ft r
    constructor
    · simp only [perform_resize]
      exact le_max_left 20 _
    · simp only [perform_resize]
      exact le_max_left 20 _
  · intro h rw rh d hc
    cases h <;>
      first
        | exact Bool.noConfusion hc
        | simp [draggable_resize_dims, DHandle.isCorner, le_max_left]
  · intro h rw rh d hc hw hh
    have hratio : 0 < rw / rh := div_pos hw hh
    cases h <;>
      first
        | exact Bool.noConfusion hc
        | (refine ⟨?_, ?_⟩ <;>
            simp only [draggable_resize_dims, DHandle.isCorner, ite_true]
           · exact le_max_left 10 _
           · exact div_pos (lt_of_lt_of_le (by norm_num) (le_max_left 10 _)) hratio)
  · intro rw rh d ma
    refine ⟨?_, ?_, ?_, ?_⟩ <;>
      simp [draggable_resize_dims, DHandle.isCorner, le_max_left]

/-- C5 witness: instantiating the hypotheses of the aspect-lock conjunct at
a concrete corner drag. -/
theorem C5_min_size_floor_witness :
    (DHandle.br.isCorner = true) ∧ ((0 : ℚ) < 100) ∧ ((0 : ℚ) < 20) ∧
    (10 ≤ (draggable_resize_dims .br 100 20 ⟨-200, 0⟩ true).1 ∧
      0 < (draggable_resize_dims .br 100 20 ⟨-200, 0⟩ true).2) :=
  ⟨rfl, by norm_num, by norm_num,
   C5_min_size_floor.2.2.1 .br 100 20 ⟨-200, 0⟩ rfl (by norm_num) (by norm_num)⟩

/-- C6 (counterexample): `snap_angle(14°, threshold 15°)` scans the multiples
of 15° in ascending order and returns 0°, although 15° is strictly nearer;
the result is 14° away from the input, beyond the claimed 7.5° bound. The
same input arises in a constrained rotate session at `atan2` angle -76°. -/
theorem C6_counterexample :
    snap_angle 14 15 = 0 ∧
    |(14 : ℚ) - 15| < |(14 : ℚ) - 0| ∧
    ¬(|snap_angle 14 15 - 14| ≤ 15 / 2) ∧
    perform_rotation_angle (-76) true = 0 ∧
    ¬(|perform_rotation_angle (-76) true - 14| ≤ 15 / 2) := by
  have h : pymod360 14 = 14 := by norm_num [pymod360]
  have h14 : snap_angle 14 15 = 0 := by
    simp [snap_angle, h, snapAngles, List.find?]
    norm_num
  have hrot : perform_rotation_angle (-76) true = 0 := by
    have h2 : pymod360 (-76 + 90 : ℚ) = 14 := by norm_num [pymod360]
    simp only [perform_rotation_angle, h2]
    exact h14
  refine ⟨h14, by norm_num, ?_, hrot, ?_⟩
  · rw [h14]
    norm_num
  · rw [hrot]
    norm_num

/-- C6 (amended): with the default threshold of 15° used by constrained
rotate sessions, `snap_angle` always returns some multiple of 15° — the
first one in ascending scan order within the threshold of the normalized
angle, which need not be the nearest — and the result differs from the
normalized (true) angle by less than 15° (not 7.5°). Consequently a
constrained rotate session always sets a rotation that is a multiple of
15°, within 15° of the normalized pointer angle. -/
theorem C6_snap_angle_multiples (angle : ℚ) :
    (∃ k : ℕ, k ≤ 24 ∧ snap_angle angle 15 = 15 * k) ∧
    |snap_angle angle 15 - pymod360 angle| < 15 ∧
    (∃ k : ℕ, k ≤ 24 ∧ perform_rotation_angle angle true = 15 * k) ∧
    |perform_rotation_angle angle true - pymod360 (angle + 90)| < 15 := by
  obtain ⟨he, hb⟩ := snap_angle_15_spec angle
  have hrot : perform_rotation_angle angle true = snap_angle (pymod360 (angle + 90)) 15 := rfl
  obtain ⟨he2, hb2⟩ := snap_angle_15_spec (pymod360 (angle + 90))
  have hidem : pymod360 (pymod360 (angle + 90)) = pymod360 (angle + 90) :=
    pymod360_of_range _ (pymod360_nonneg _) (pymod360_lt _)
  refine ⟨he, hb, ?_, ?_⟩
  · rw [hrot]
    exact he2
  · rw [hrot]
    rw [hidem] at hb2
    exact hb2

/-- C7 (code bug): with snap threshold 8, a 40×40 image dragged to candidate
position (103, 300) — its center at x = 123 — near another 40×40 image
centered at x = 120 triggers the center-to-center check and draws exactly
one vertical guide at 120, but the returned position sets the item's
*origin* to 120: the corrective terms in the source cancel
(`other_cx - (center - left) + width/2 = other_cx`), so the moved item's
center lands at 140, not at the other item's center 120. -/
theorem C7_center_snap_misaligns :
    detect_alignments true 8 ⟨0, 0, 800, 1200⟩ [image_scene_rect ⟨100, 0⟩ 40 40]
        (image_scene_rect ⟨0, 0⟩ 40 40) ⟨0, 0⟩ ⟨103, 300⟩
      = (⟨120, 300⟩, [⟨GuideKind.vertical, 120⟩]) ∧
    |((103 : ℚ) + 40 / 2) - ((100 : ℚ) + 40 / 2)| < 8 ∧
    (120 : ℚ) + 40 / 2 ≠ (100 : ℚ) + 40 / 2 := by
  refine ⟨?_, by norm_num [abs_of_nonneg], by norm_num⟩
  norm_num [detect_alignments, item_checks, get_item_bounds, image_scene_rect,
    Rect.translate, Rect.left, Rect.right, Rect.top, Rect.bottom, Rect.centerX,
    Rect.centerY, abs_of_nonneg, abs_of_nonpos]
  simp

/-- C10 (counterexample): a movable text object in a move session passes its
candidate position through the smart-guide detector even when grid snap is
enabled — `DraggableTextItem.itemChange` has no grid branch at all, so at
candidate (50, 50) (no alignment in range) the position stays (50, 50)
instead of the grid-rounded value. -/
theorem C10_counterexample :
    text_item_change false true 8 ⟨0, 0, 800, 1200⟩ []
        (image_scene_rect ⟨0, 0⟩ 40 40) ⟨0, 0⟩ ⟨50, 50⟩ = ⟨50, 50⟩ ∧
    (50 : ℚ) ≠ round ((50 : ℚ) / cm_to_pixels 1 96) * cm_to_pixels 1 96 := by
  constructor
  · norm_num [text_item_change, detect_alignments, item_checks, get_item_bounds,
      image_scene_rect, Rect.translate, Rect.left, Rect.right, Rect.top, Rect.bottom,
      Rect.centerX, Rect.centerY, abs_of_nonneg, abs_of_nonpos]
  · norm_num [cm_to_pixels, round_eq]

/-- C10 (amended): in `DraggableImageItem.itemChange`, grid snap takes
priority — when it is enabled the position is rounded to the nearest 1 cm
grid cell and the result does not depend on the guide detector or the
other scene items at all. Text items instead always consult the detector
(outside edit mode), regardless of the grid toggle. -/
theorem C10_grid_snap_priority :
    (∀ (dpi : ℚ) (ir rot en : Bool) (thr : ℚ) (canvas : Rect)
        (others : List Rect) (mr : Rect) (mp np : Pt),
      image_item_change true dpi ir rot en thr canvas others mr mp np =
        ⟨round (np.x / cm_to_pixels 1 dpi) * cm_to_pixels 1 dpi,
         round (np.y / cm_to_pixels 1 dpi) * cm_to_pixels 1 dpi⟩) ∧
    (∀ (en : Bool) (thr : ℚ) (canvas : Rect) (others : List Rect)
        (mr : Rect) (mp np : Pt),
      text_item_change false en thr canvas others mr mp np =
        (detect_alignments en thr canvas others mr mp np).1) := by
  constructor
  · intro dpi ir rot en thr canvas others mr mp np
    simp [image_item_change]
  · intro en thr canvas others mr mp np
    simp [text_item_change]

/-- C2 (counterexample): two editor states that differ only in a placed
text object produce identical snapshots — `save_history_state` serializes
`canvas_images` only, so the text object is omitted from the capture and
the snapshot is not a capture of the entire scene. -/
theorem C2_counterexample :
    serialize_state { initState with text_items := [demo_text] }
      = serialize_state initState ∧
    ({ initState with text_items := [demo_text] } : EditorState).text_items
      ≠ initState.text_items := by
  constructor
  · rfl
  · simp [initState]

/-- C2 (amended): the snapshot captures the full attribute set of every
*image* object — restoring it recovers every `CanvasImageItem` field by
field (when assets resolve) — but it does not depend on the scene's text
objects at all. -/
theorem C2_capture_images_full (pE lO : String → Bool) (e : EditorState)
    (t : List TextCanvasItem) (old : List CanvasImageItem)
    (hres : ∀ img ∈ e.canvas_images, pE img.image_path = true ∧ lO img.image_path = true) :
    (restore_state pE lO old (some (serialize_state e))).canvas_images
      = e.canvas_images ∧
    serialize_state { e with text_items := t } = serialize_state e := by
  refine ⟨?_, rfl⟩
  rw [restore_serialize_round_trip pE lO old e hres]

/-- C2 witness: a concrete one-image scene round-trips through its
snapshot. -/
theorem C2_capture_images_full_witness :
    (∀ img ∈ ({ initState with canvas_images := [demo_img] } : EditorState).canvas_images,
      all_ok img.image_path = true ∧ all_ok img.image_path = true) ∧
    (restore_state all_ok all_ok []
        (some (serialize_state { initState with canvas_images := [demo_img] }))).canvas_images
      = [demo_img] :=
  ⟨fun _ _ => ⟨rfl, rfl⟩,
   (C2_capture_images_full all_ok all_ok { initState with canvas_images := [demo_img] }
     [demo_text] [] (fun _ _ => ⟨rfl, rfl⟩)).1⟩

/-- C1 (counterexample): on a fresh editor holding one image,
`capture(); mutate(); undo()` does *not* restore the captured state: the
single capture leaves `history_index = 0`, so `undo()` is a no-op and the
scene keeps the mutated image (x moved from 1 to 99). -/
theorem C1_counterexample :
    (undo all_ok all_ok
        { save_history_state { initState with canvas_images := [demo_img] } with
          canvas_images := [{ demo_img with x := 99 }] }).canvas_images
      = [{ demo_img with x := 99 }] ∧
    [{ demo_img with x := 99 }] ≠ [demo_img] := by
  constructor
  · unfold undo
    rw [if_neg (show ¬(({ save_history_state { initState with canvas_images := [demo_img] } with
          canvas_images := [{ demo_img with x := 99 }] } : EditorState).history_index > 0) by
        show ¬((0 : ℤ) > 0)
        decide)]
  · intro habs
    norm_num [demo_img] at habs

/-- C1 (amended): `undo()` steps back to the *previous* snapshot, so the
round trip needs a capture of the mutated state as well: from any
well-formed editor whose assets resolve,
`capture(); mutate(); capture(); undo()` restores the scene at the first
capture field by field, and `redo()` after that restores the mutated
scene. -/
theorem C1_undo_redo_round_trip (pE lO : String → Bool) (e : EditorState)
    (m : List CanvasImageItem → List CanvasImageItem)
    (hwf : HistoryWF e)
    (h1 : ∀ img ∈ e.canvas_images, pE img.image_path = true ∧ lO img.image_path = true)
    (h2 : ∀ img ∈ m e.canvas_images, pE img.image_path = true ∧ lO img.image_path = true) :
    (undo pE lO (save_history_state
        { save_history_state e with
          canvas_images := m (save_history_state e).canvas_images })).canvas_images
      = e.canvas_images ∧
    (redo pE lO (undo pE lO (save_history_state
        { save_history_state e with
          canvas_images := m (save_history_state e).canvas_images }))).canvas_images
      = m e.canvas_images := by
  obtain ⟨pre, hp, hh1, hi1, hc1, _⟩ := save_history_spec e hwf
  have hs2 : serialize_state { save_history_state e with
      canvas_images := m (save_history_state e).canvas_images }
        = serialize_state { e with canvas_images := m e.canvas_images } := by
    obtain ⟨hdw, hdh, hdd⟩ := save_history_dims e
    simp [serialize_state, hc1, hdw, hdh, hdd]
  obtain ⟨q, hh3, hi3, hc3⟩ := save_at_tail_spec
    { save_history_state e with canvas_images := m (save_history_state e).canvas_images }
    pre (serialize_state e) hh1 (by rw [hh1]; simp; omega) hi1
  rw [hs2] at hh3
  obtain ⟨hu_img, hu_idx, hu_hist, _, _, _⟩ := undo_step_spec pE lO _ q
    (serialize_state e) (serialize_state { e with canvas_images := m e.canvas_images })
    hh3 hi3
  have hrt1 := restore_serialize_round_trip pE lO
    (save_history_state { save_history_state e with
      canvas_images := m (save_history_state e).canvas_images }).canvas_images e h1
  have hfirst : (undo pE lO (save_history_state
      { save_history_state e with
        canvas_images := m (save_history_state e).canvas_images })).canvas_images
      = e.canvas_images := by
    rw [hu_img, hrt1]
  refine ⟨hfirst, ?_⟩
  have hh4 : (undo pE lO (save_history_state
      { save_history_state e with
        canvas_images := m (save_history_state e).canvas_images })).history
      = q ++ [serialize_state e,
              serialize_state { e with canvas_images := m e.canvas_images }] := by
    rw [hu_hist, hh3]
  obtain ⟨hr_img, _⟩ := redo_step_spec pE lO _ q
    (serialize_state e) (serialize_state { e with canvas_images := m e.canvas_images })
    hh4 hu_idx
  rw [hr_img]
  have hrt2 := restore_serialize_round_trip pE lO
    (undo pE lO (save_history_state
      { save_history_state e with
        canvas_images := m (save_history_state e).canvas_images })).canvas_images
    { e with canvas_images := m e.canvas_images } (by simpa using h2)
  rw [hrt2]

/-- C1 witness: the amended round trip at a concrete one-image editor with
a delete-all mutation. -/
theorem C1_undo_redo_round_trip_witness :
    HistoryWF { initState with canvas_images := [demo_img] } ∧
    (undo all_ok all_ok (save_history_state
        { save_history_state { initState with canvas_images := [demo_img] } with
          canvas_images := (fun _ => ([] : List CanvasImageItem))
            (save_history_state { initState with canvas_images := [demo_img] }).canvas_images })).canvas_images
      = [demo_img] ∧
    (redo all_ok all_ok (undo all_ok all_ok (save_history_state
        { save_history_state { initState with canvas_images := [demo_img] } with
          canvas_images := (fun _ => ([] : List CanvasImageItem))
            (save_history_state { initState with canvas_images := [demo_img] }).canvas_images }))).canvas_images
      = [] := by
  have hwf : HistoryWF { initState with canvas_images := [demo_img] } :=
    ⟨by simp [initState], by simp [initState], by simp [initState],
     ⟨fun _ => rfl, fun _ => rfl⟩⟩
  have h := C1_undo_redo_round_trip all_ok all_ok
    { initState with canvas_images := [demo_img] } (fun _ => [])
    hwf (fun _ _ => ⟨rfl, rfl⟩) (fun _ hm => absurd hm (List.not_mem_nil _))
  exact ⟨hwf, h.1, h.2⟩

/-- C8 (counterexample): restoring from `{}` — valid JSON with no usable
`'images'` key — surfaces the error but does *not* leave the scene
unchanged: the image objects are removed before the structure is
validated, so a one-image scene comes out empty. -/
theorem C8_counterexample :
    restore_state all_ok all_ok [demo_img] (some (.jobj [])) = ⟨[], [], true⟩ ∧
    ([] : List CanvasImageItem) ≠ [demo_img] := by
  constructor
  · rfl
  · simp

/-- C8 (amended): input that fails JSON decoding aborts before touching the
scene — the old image list is kept and the error is surfaced. Decodable
input whose `'images'` key is missing (including a non-dict state) or
holds a non-iterable value also fails fatally with the error surfaced,
but only after the scene's image objects have been cleared. The
degenerate iterable non-list values — an empty string or empty dict under
`'images'` — iterate zero times: the call completes with the scene
cleared and *no* error surfaced at all. -/
theorem C8_malformed_restore (pE lO : String → Bool) (old : List CanvasImageItem) :
    restore_state pE lO old none = ⟨old, [], true⟩ ∧
    (∀ v : JValue, v.lookup "images" = none →
      restore_state pE lO old (some v) = ⟨[], [], true⟩) ∧
    (∀ v jv : JValue, v.lookup "images" = some jv → iterable_elems jv = none →
      restore_state pE lO old (some v) = ⟨[], [], true⟩) ∧
    restore_state pE lO old (some (.jobj [("images", .jstr "")])) = ⟨[], [], false⟩ ∧
    restore_state pE lO old (some (.jobj [("images", .jobj [])])) = ⟨[], [], false⟩ := by
  refine ⟨rfl, ?_, ?_, rfl, rfl⟩
  · intro v hv
    simp only [restore_state, hv]
  · intro v jv hv hit
    simp only [restore_state, hv, hit]

/-- C8 witness: the fatal restore paths (undecodable input; missing
`'images'` key; non-iterable `'images'` value) at concrete inputs. -/
theorem C8_malformed_restore_witness :
    (JValue.jobj []).lookup "images" = none ∧
    (JValue.jobj [("images", .jnum 0)]).lookup "images" = some (.jnum 0) ∧
    iterable_elems (.jnum 0) = none ∧
    restore_state all_ok all_ok [demo_img] none = ⟨[demo_img], [], true⟩ ∧
    restore_state all_ok all_ok [demo_img] (some (.jobj [])) = ⟨[], [], true⟩ ∧
    restore_state all_ok all_ok [demo_img] (some (.jobj [("images", .jnum 0)]))
      = ⟨[], [], true⟩ :=
  ⟨rfl, rfl, rfl, (C8_malformed_restore all_ok all_ok [demo_img]).1,
   (C8_malformed_restore all_ok all_ok [demo_img]).2.1 (.jobj []) rfl,
   (C8_malformed_restore all_ok all_ok [demo_img]).2.2.1
     (.jobj [("images", .jnum 0)]) (.jnum 0) rfl rfl⟩

/-- C9: restoring a structurally well-formed snapshot (an `'images'` array
of dict entries) never aborts: each entry contributes independently either
a restored image or a `{path, reason}` failure record, in order; the call
is not fatal, the accumulated failures are returned once after the whole
loop (the source shows them in a single dialog exactly when non-empty),
and an entry whose asset path does not resolve is skipped with the record
`{path, 'Archivo no encontrado'}` while all other entries still apply. -/
theorem C9_missing_assets_skipped (pE lO : String → Bool)
    (old : List CanvasImageItem) (v : JValue) (entries : List JValue)
    (him : images_list v = some entries)
    (hobj : ∀ jv ∈ entries, process_image_entry pE lO jv ≠ none) :
    restore_state pE lO old (some v) =
      ⟨entries.filterMap (entry_restored pE lO),
       entries.filterMap (entry_failure pE lO), false⟩ ∧
    (∀ jv ∈ entries, ∀ p : String,
      (JValue.lookup "path" jv).bind JValue.asStr = some p → pE p = false →
      entry_failure pE lO jv = some ⟨p, "Archivo no encontrado"⟩ ∧
      entry_restored pE lO jv = none) := by
  constructor
  · rw [restore_state_eq_loop pE lO old v entries him]
    simpa using restore_loop_characterization pE lO entries hobj [] []
  · intro jv hjv p hp hpe
    rcases jv with _ | b | q | s | l | kvs
    · simp [JValue.lookup] at hp
    · simp [JValue.lookup] at hp
    · simp [JValue.lookup] at hp
    · simp [JValue.lookup] at hp
    · simp [JValue.lookup] at hp
    · constructor <;>
        simp [entry_failure, entry_restored, process_image_entry, hp, hpe]

/-- C9 witness: a snapshot holding one resolvable and one missing image
restores the first, records the second, and does not abort. -/
theorem C9_missing_assets_skipped_witness :
    images_list (.jobj [("images",
        .jarr [serialize_image demo_img, serialize_image demo_missing_img])])
      = some [serialize_image demo_img, serialize_image demo_missing_img] ∧
    (∀ jv ∈ [serialize_image demo_img, serialize_image demo_missing_img],
      process_image_entry demo_resolve all_ok jv ≠ none) ∧
    restore_state demo_resolve all_ok [] (some (.jobj [("images",
        .jarr [serialize_image demo_img, serialize_image demo_missing_img])])) =
      ⟨[serialize_image demo_img, serialize_image demo_missing_img].filterMap
          (entry_restored demo_resolve all_ok),
       [serialize_image demo_img, serialize_image demo_missing_img].filterMap
          (entry_failure demo_resolve all_ok), false⟩ := by
  have hobj : ∀ jv ∈ [serialize_image demo_img, serialize_image demo_missing_img],
      process_image_entry demo_resolve all_ok jv ≠ none := by
    intro jv hjv
    simp only [List.mem_cons, List.not_mem_nil, or_false] at hjv
    rcases hjv with rfl | rfl
    · simp [process_image_entry, serialize_image, demo_img, JValue.lookup, List.lookup,
        JValue.asStr, JValue.asNum, JValue.asBool, demo_resolve, all_ok]
    · simp [process_image_entry, serialize_image, demo_missing_img, JValue.lookup,
        List.lookup, JValue.asStr, JValue.asNum, JValue.asBool, demo_resolve, all_ok]
  exact ⟨rfl, hobj,
    (C9_missing_assets_skipped demo_resolve all_ok []
      (.jobj [("images",
        .jarr [serialize_image demo_img, serialize_image demo_missing_img])])
      [serialize_image demo_img, serialize_image demo_missing_img] rfl hobj).1⟩

/-- C3: from the initial editor state, after any sequence of scene
mutations, captures, undos and redos the history stack satisfies its
invariant — at most 50 snapshots, and `0 ≤ index < length` whenever the
stack is non-empty. Moreover a capture issued while the index is not at
the tail first discards every snapshot after the index; a capture at the
cap (length 50, index at the tail) drops the oldest snapshot, keeps the
length at 50 and the index valid at the tail; and every capture leaves the
index at the tail. -/
theorem C3_history_stack_invariant (pE lO : String → Bool) (ops : List EdOp) :
    (run pE lO ops).history.length ≤ 50 ∧
    ((run pE lO ops).history ≠ [] →
      0 ≤ (run pE lO ops).history_index ∧
      (run pE lO ops).history_index < ((run pE lO ops).history.length : ℤ)) ∧
    ((run pE lO ops).history_index < ((run pE lO ops).history.length : ℤ) - 1 →
      (save_history_state (run pE lO ops)).history =
        (run pE lO ops).history.take ((run pE lO ops).history_index + 1).toNat
          ++ [serialize_state (run pE lO ops)]) ∧
    ((run pE lO ops).history.length = 50 → (run pE lO ops).history_index = 49 →
      (save_history_state (run pE lO ops)).history =
        (run pE lO ops).history.drop 1 ++ [serialize_state (run pE lO ops)] ∧
      (save_history_state (run pE lO ops)).history.length = 50 ∧
      (save_history_state (run pE lO ops)).history_index = 49) ∧
    (save_history_state (run pE lO ops)).history_index =
      ((save_history_state (run pE lO ops)).history.length : ℤ) - 1 := by
  obtain ⟨hlen, hgeb, hlt, hemp⟩ := run_wf pE lO ops
  refine ⟨hlen, ?_, ?_, ?_, ?_⟩
  · intro hne
    have hnm : ¬((run pE lO ops).history_index = -1) := fun h => hne (hemp.mp h)
    exact ⟨by omega, hlt⟩
  · intro hmid
    exact save_truncates (run pE lO ops) hlen hmid
  · intro h50 h49
    exact save_at_cap (run pE lO ops) h50 h49
  · obtain ⟨pre, hp, hh, hi, _, _⟩ := save_history_spec (run pE lO ops) (run_wf pE lO ops)
    rw [hh, hi]
    simp

/-- C3 witness: the invariant and both capture behaviors exercised on
concrete operation sequences — a capture-capture-undo run (index mid-stack)
and a run of 50 captures (stack at the cap). -/
theorem C3_history_stack_invariant_witness :
    ((run all_ok all_ok [EdOp.capture, EdOp.capture, EdOp.hundo]).history_index <
      ((run all_ok all_ok [EdOp.capture, EdOp.capture, EdOp.hundo]).history.length : ℤ) - 1) ∧
    (save_history_state (run all_ok all_ok [EdOp.capture, EdOp.capture, EdOp.hundo])).history =
      (run all_ok all_ok [EdOp.capture, EdOp.capture, EdOp.hundo]).history.take
          ((run all_ok all_ok [EdOp.capture, EdOp.capture, EdOp.hundo]).history_index + 1).toNat
        ++ [serialize_state (run all_ok all_ok [EdOp.capture, EdOp.capture, EdOp.hundo])] ∧
    (run all_ok all_ok (List.replicate 50 EdOp.capture)).history.length = 50 ∧
    (run all_ok all_ok (List.replicate 50 EdOp.capture)).history_index = 49 ∧
    (save_history_state (run all_ok all_ok (List.replicate 50 EdOp.capture))).history.length = 50 ∧
    (save_history_state (run all_ok all_ok (List.replicate 50 EdOp.capture))).history_index = 49 := by
  have hmid : (run all_ok all_ok [EdOp.capture, EdOp.capture, EdOp.hundo]).history_index <
      ((run all_ok all_ok [EdOp.capture, EdOp.capture, EdOp.hundo]).history.length : ℤ) - 1 := by
    decide
  have h50 : (run all_ok all_ok (List.replicate 50 EdOp.capture)).history.length = 50 :=
    (run_captures all_ok all_ok 50 (le_refl 50)).1
  have h49 : (run all_ok all_ok (List.replicate 50 EdOp.capture)).history_index = 49 := by
    rw [(run_captures all_ok all_ok 50 (le_refl 50)).2]
    rfl
  have ha := C3_history_stack_invariant all_ok all_ok [EdOp.capture, EdOp.capture, EdOp.hundo]
  have hb := C3_history_stack_invariant all_ok all_ok (List.replicate 50 EdOp.capture)
  exact ⟨hmid, ha.2.2.1 hmid, h50, h49, (hb.2.2.2.1 h50 h49).2.1, (hb.2.2.2.1 h50 h49).2.2⟩

end Plantillas
